import Mathlib

/-!
Verification development for the spacetime-panel dashboard core.

The TypeScript source is shallowly embedded: every definition below is a
direct translation of a function from the repository (file and symbol are
named in each doc comment).  JavaScript runtime values are modelled by the
inductive `JSValue`; the universe is restricted to non-null values (the
code paths under study never produce `null`), so `typeof v == "object"`
holds exactly for object values.  Machine numbers are modelled as integers
(`Int`); `NaN` is a distinguished value.  Fallible code returns `Except`.
-/

/-- Model of a JavaScript runtime value (null-free universe).  Objects are
association lists of own properties; `vBigInt` models BigInt values, `vNaN`
the not-a-number double. -/
inductive JSValue where
  | vUndefined : JSValue
  | vBool : Bool → JSValue
  | vNum : Int → JSValue
  | vNaN : JSValue
  | vStr : String → JSValue
  | vBigInt : Int → JSValue
  | vObj : List (String × JSValue) → JSValue
deriving Repr

open JSValue

/-- Model of the JavaScript `===` comparison on the embedded value
universe: equality of primitive values (with `NaN === NaN` false), and
structural equality on objects (the embedding identifies an object with
its contents). -/
def jsEq : JSValue → JSValue → Bool
  | vUndefined, vUndefined => true
  | vBool a, vBool b => a == b
  | vNum a, vNum b => a == b
  | vStr a, vStr b => a == b
  | vBigInt a, vBigInt b => a == b
  | vObj ps, vObj qs => jsEqProps ps qs
  | _, _ => false
where
  /-- Pointwise comparison of two property lists. -/
  jsEqProps : List (String × JSValue) → List (String × JSValue) → Bool
  | [], [] => true
  | (k, v) :: ps, (l, w) :: qs => k == l && jsEq v w && jsEqProps ps qs
  | _, _ => false

/-- Model of `typeof v === "object"`: true exactly for object values in
the null-free universe. -/
def isObjectShaped : JSValue → Bool
  | vObj _ => true
  | _ => false

/-- Model of JavaScript property access `v[key]`: own-property lookup on
objects, `undefined` on primitives and for absent properties. -/
def getProp : JSValue → String → JSValue
  | vObj props, key => (props.lookup key).getD vUndefined
  | _, _ => vUndefined

/-! ## Redux table-mirror slice (src/store/spacetime-slice.ts)

The slice state maps a table name to its row array.  Keys absent from the
association list model table names never written: reading them yields
`undefined`, which is falsy, so the `if (state[tableName])` guards fail.
A present (possibly empty) row array is truthy in JavaScript. -/

/-- The table portion of the slice state: table name to row array, first
binding wins (keys are unique in every state the reducer builds). -/
def MirrorState := List (String × List JSValue)

/-- Row array currently stored for a table, or `none` when the key is
absent from the state. -/
def lookupTable (s : MirrorState) (t : String) : Option (List JSValue) :=
  match s with
  | [] => none
  | (k, rows) :: rest => if k == t then some rows else lookupTable rest t

/-- Assignment `state[tableName] = data`: replace the first binding of the
key, or add one when absent. -/
def setKey (s : MirrorState) (t : String) (rows : List JSValue) : MirrorState :=
  match s with
  | [] => [(t, rows)]
  | (k, old) :: rest =>
      if k == t then (t, rows) :: rest else (k, old) :: setKey rest t rows

/-- In-place modification of an existing table's row array; states lacking
the key are returned unchanged (this is the `if (state[tableName])`
guard). -/
def modifyKey (s : MirrorState) (t : String)
    (f : List JSValue → List JSValue) : MirrorState :=
  match s with
  | [] => []
  | (k, rows) :: rest =>
      if k == t then (k, f rows) :: rest else (k, rows) :: modifyKey rest t f

/-- Embedding of `comparePrimaryKeys` from src/store/spacetime-slice.ts:
compare the `primaryKey` property of the two values when both are
object-shaped, otherwise fall back to raw `===` equality. -/
def comparePrimaryKeys (a b : JSValue) (primaryKey : String) : Bool :=
  if isObjectShaped a && isObjectShaped b then
    jsEq (getProp a primaryKey) (getProp b primaryKey)
  else
    jsEq a b

/-- Row-location predicate shared by `updateTableRow` and
`deleteTableRow`: the row matches when `comparePrimaryKeys(item[primaryKey],
primaryValue, primaryKey)` holds. -/
def rowMatches (primaryKey : String) (primaryValue : JSValue)
    (item : JSValue) : Bool :=
  comparePrimaryKeys (getProp item primaryKey) primaryValue primaryKey

/-- The four slice actions the mirror claims are about
(src/store/spacetime-slice.ts, `setTableData` / `insertTableRow` /
`updateTableRow` / `deleteTableRow`). -/
inductive SliceAction where
  | setData (tableName : String) (data : List JSValue)
  | insertRow (tableName : String) (row : JSValue)
  | updateRow (tableName : String) (primaryKey : String)
      (primaryValue : JSValue) (row : JSValue)
  | deleteRow (tableName : String) (primaryKey : String)
      (primaryValue : JSValue)

/-- Embedding of the slice reducer cases: `setTableData` assigns the array
wholesale; `insertTableRow` pushes onto an existing array; `updateTableRow`
replaces the first row located by `comparePrimaryKeys`; `deleteTableRow`
splices out the first row so located.  Uninitialised tables make the last
three no-ops. -/
def applySliceAction (s : MirrorState) : SliceAction → MirrorState
  | .setData t data => setKey s t data
  | .insertRow t row => modifyKey s t (fun rows => rows ++ [row])
  | .updateRow t pk pv row =>
      modifyKey s t (fun rows =>
        match rows.findIdx? (rowMatches pk pv) with
        | some i => rows.set i row
        | none => rows)
  | .deleteRow t pk pv =>
      modifyKey s t (fun rows =>
        match rows.findIdx? (rowMatches pk pv) with
        | some i => rows.eraseIdx i
        | none => rows)

/-- Left fold of a list of slice actions over a state, in dispatch
order. -/
def applySliceActions (s : MirrorState) (as : List SliceAction) : MirrorState :=
  as.foldl applySliceAction s

/-! ## Replay model for the C3 fold claim

The spec describes the mirror as a pure left fold of the notification
stream over a single table's row collection: seed replaces wholesale,
insert appends, update replaces the row located by primary-key equality,
delete removes it.  The fold below is that description, stated on a bare
row list with no surrounding state. -/

/-- One per-table notification, as described by the spec's fold. -/
inductive TableOp where
  | ins (row : JSValue)
  | upd (primaryKey : String) (primaryValue : JSValue) (row : JSValue)
  | del (primaryKey : String) (primaryValue : JSValue)

/-- Spec-side fold step on a bare row collection: insert appends, update
replaces the row whose primary-key value is equal (the first such row),
delete removes it. -/
def replayStep (rows : List JSValue) : TableOp → List JSValue
  | .ins row => rows ++ [row]
  | .upd pk pv row =>
      match rows.findIdx? (rowMatches pk pv) with
      | some i => rows.set i row
      | none => rows
  | .del pk pv =>
      match rows.findIdx? (rowMatches pk pv) with
      | some i => rows.eraseIdx i
      | none => rows

/-- Spec-side replay of a notification sequence from an initial
collection. -/
def replay (init : List JSValue) (ops : List TableOp) : List JSValue :=
  ops.foldl replayStep init

/-- Injection of a per-table notification into the slice action it is
dispatched as. -/
def liftOp (t : String) : TableOp → SliceAction
  | .ins row => .insertRow t row
  | .upd pk pv row => .updateRow t pk pv row
  | .del pk pv => .deleteRow t pk pv

/-! ## Lemmas about the slice state -/

/-! ## Wire-level algebraic types (the SDK's AlgebraicType, as consumed by
src/src/utils/introspection/type-analyzer.ts)

Product elements and sum variants carry an optional name (the source
guards every `element.name` / `variant.name` access) and a sub-type; the
SDK's `SumTypeVariant.algebraicType` is mandatory, so variant payloads are
mandatory here as well. -/

/-- Primitive type tags of the wire protocol. -/
inductive PrimTag where
  | bool | u8 | u16 | u32 | u64 | i8 | i16 | i32 | i64 | f32 | f64 | str
deriving DecidableEq, Repr

/-- Special built-in type tags of the wire protocol. -/
inductive SpecialTag where
  | identity | connectionId | timestamp | timeDuration | scheduleAt
deriving DecidableEq, Repr

/-- An algebraic type tree: primitive, product of named elements, sum of
named variants, array, map, or special built-in. -/
inductive AlgebraicType where
  | prim (k : PrimTag)
  | product (elements : List (Option String × AlgebraicType))
  | sum (variants : List (Option String × AlgebraicType))
  | arr (elem : AlgebraicType)
  | mapTy (key val : AlgebraicType)
  | special (k : SpecialTag)
deriving Repr

/-- Structural equality test on algebraic type trees; this is the
behaviour of the analyzer's `safeStringify`-based structural signature
used as memoization key. -/
def atBeq : AlgebraicType → AlgebraicType → Bool
  | .prim a, .prim b => a == b
  | .product as, .product bs => atBeqList as bs
  | .sum as, .sum bs => atBeqList as bs
  | .arr a, .arr b => atBeq a b
  | .mapTy k v, .mapTy l w => atBeq k l && atBeq v w
  | .special a, .special b => a == b
  | _, _ => false
where
  /-- Pointwise structural equality of element or variant lists. -/
  atBeqList : List (Option String × AlgebraicType) →
      List (Option String × AlgebraicType) → Bool
  | [], [] => true
  | (n, t) :: as, (m, u) :: bs => n == m && atBeq t u && atBeqList as bs
  | _, _ => false

/-! ## String helpers shared by the introspection sources -/

/-- Model of JavaScript `s.toLowerCase()` (character-wise ASCII
lowering, as the source applies it to identifier-like names). -/
def jsToLower (s : String) : String := String.mk (s.data.map Char.toLower)

/-- Prefix test on character lists. -/
def charsLeadWith : List Char → List Char → Bool
  | [], _ => true
  | _ :: _, [] => false
  | p :: ps, c :: cs => p == c && charsLeadWith ps cs

/-- Substring occurrence test on character lists. -/
def listContainsSub : List Char → List Char → Bool
  | [], pat => pat.isEmpty
  | c :: cs, pat => charsLeadWith pat (c :: cs) || listContainsSub cs pat

/-- Model of JavaScript `s.includes(pat)`. -/
def strIncludes (s pat : String) : Bool := listContainsSub s.data pat.data

/-- Model of JavaScript `s.startsWith(pre)`. -/
def strStartsWith (s pre : String) : Bool := charsLeadWith pre.data s.data

/-- Characters the display-name splitter `/[_\s]+/` matches. -/
def isNameSep (c : Char) : Bool := c == '_' || c.isWhitespace

/-- Split a character list on maximal runs of separators, keeping the
boundary empty words JavaScript `split(/[_\s]+/)` produces. -/
def splitRunsGo : List Char → List Char → List (List Char)
  | [], acc => [acc.reverse]
  | [c], acc =>
      if isNameSep c then [acc.reverse, []] else [(c :: acc).reverse]
  | c :: d :: ds, acc =>
      if isNameSep c then
        if isNameSep d then splitRunsGo (d :: ds) acc
        else acc.reverse :: splitRunsGo (d :: ds) []
      else splitRunsGo (d :: ds) (c :: acc)

/-- Model of `name.split(/[_\s]+/)`. -/
def splitNameWords (s : String) : List String :=
  (splitRunsGo s.data []).map fun l => String.mk l

/-- Model of `word.charAt(0).toUpperCase() + word.slice(1)`. -/
def capitalizeWord (w : String) : String :=
  match w.data with
  | [] => ""
  | c :: rest => String.mk (c.toUpper :: rest)

/-- Embedding of `formatDisplayName` (identical in TypeAnalyzer and
SpacetimeIntrospector): split on underscore/whitespace runs, capitalize
each word, join with spaces. -/
def formatDisplayName (name : String) : String :=
  String.intercalate " " ((splitNameWords name).map capitalizeWord)

/-! ## TypeAnalyzer (src/src/utils/introspection/type-analyzer.ts) -/

/-- String rendering of a primitive tag, following the analyzer's
`typeMap`. -/
def primTagString : PrimTag → String
  | .bool => "boolean"
  | .u8 => "u8"
  | .u16 => "u16"
  | .u32 => "u32"
  | .u64 => "u64"
  | .i8 => "i8"
  | .i16 => "i16"
  | .i32 => "i32"
  | .i64 => "i64"
  | .f32 => "f32"
  | .f64 => "f64"
  | .str => "string"

/-- String rendering of a special tag, following the analyzer's
`isIdentity` … `isScheduleAt` chain. -/
def specialTagString : SpecialTag → String
  | .identity => "Identity"
  | .connectionId => "ConnectionId"
  | .timestamp => "Timestamp"
  | .timeDuration => "TimeDuration"
  | .scheduleAt => "ScheduleAt"

/-- Lower-cased variant name as the source computes it
(`v.name?.toLowerCase()`). -/
def lowerVariantName (v : Option String × AlgebraicType) : Option String :=
  v.1.map jsToLower

/-- Whether a variant is the `some` variant (any casing). -/
def variantIsSome (v : Option String × AlgebraicType) : Bool :=
  lowerVariantName v == some "some"

/-- Whether a sum's variant list passes the analyzer's Option check: two
variants whose lower-cased names include both "some" and "none". -/
def isOptionVariantList (vs : List (Option String × AlgebraicType)) : Bool :=
  vs.length == 2 && (vs.map lowerVariantName).contains (some "some")
    && (vs.map lowerVariantName).contains (some "none")

/-- Embedding of `TypeAnalyzer.getTypeString`: a sum recognised as an
Option wrapper renders as its some-payload's type string, any other sum
renders as "enum"; primitives and specials via their tag, products as
"object", arrays and maps recursively.  (The source's final "unknown"
fallback is unreachable on this closed type.) -/
def getTypeString : AlgebraicType → String
  | .sum vs =>
      if isOptionVariantList vs then
        match vs with
        | [v1, v2] =>
            if variantIsSome v1 then getTypeString v1.2
            else if variantIsSome v2 then getTypeString v2.2
            else "enum"
        | _ => "enum"
      else "enum"
  | .prim k => primTagString k
  | .product _ => "object"
  | .arr e => "Array<" ++ getTypeString e ++ ">"
  | .mapTy k v => "Map<" ++ getTypeString k ++ ", " ++ getTypeString v ++ ">"
  | .special k => specialTagString k

/-- Embedding of `TypeAnalyzer.isOptionalType`: a sum whose variant names
(lower-cased) include both "none" and "some"; no length restriction. -/
def isOptionalTy : AlgebraicType → Bool
  | .sum vs =>
      (vs.map lowerVariantName).contains (some "none")
        && (vs.map lowerVariantName).contains (some "some")
  | _ => false

/-- Embedding of `TypeAnalyzer.isArrayType`. -/
def isArrayTy : AlgebraicType → Bool
  | .arr _ => true
  | _ => false

/-- Embedding of `TypeAnalyzer.extractEnumValues`: variant names of a
non-Option sum, missing names rendered as the empty string. -/
def extractEnumValues : AlgebraicType → Option (List String)
  | .sum vs =>
      if isOptionalTy (.sum vs) then none
      else some (vs.map fun v => v.1.getD "")
  | _ => none

/-- Validation rules attached to a field descriptor (the source's
`validation` object; absent numeric bounds and pattern are `none`, and a
missing `required` key is `false`). -/
structure Validation where
  required : Bool
  min : Option Int
  max : Option Int
  pattern : Option String
deriving DecidableEq, Repr

/-- Field descriptor derived by the analyzer (the source's
`FieldMetadata`); `enumConstructor` models the `_enumConstructor`
enhancement as the name of the matched generated-module export, `none`
when absent or when the lookup found nothing. -/
structure FieldMetadata where
  name : String
  type : String
  isOptional : Bool
  isArray : Bool
  displayName : String
  inputType : String
  validation : Validation
  enumValues : Option (List String)
  enumConstructor : Option String
deriving DecidableEq, Repr

/-- Ordered pattern table of `TypeAnalyzer.inferInputType` (insertion
order of the source's object literal). -/
def inputTypePatterns : List (String × String) :=
  [("email", "email"), ("mail", "email"), ("password", "password"),
   ("secret", "password"), ("token", "password"), ("url", "url"),
   ("link", "url"), ("website", "url"), ("description", "textarea"),
   ("content", "textarea"), ("message", "textarea"),
   ("comment", "textarea"), ("bio", "textarea"), ("about", "textarea")]

/-- The type strings matched by the source regex
`^[ui](8|16|32|64)$|^f(32|64)$`. -/
def numericTypeStrings : List String :=
  ["u8", "u16", "u32", "u64", "i8", "i16", "i32", "i64", "f32", "f64"]

/-- Embedding of `TypeAnalyzer.inferInputType`. -/
def inferInputType (typeString fieldName : String) : String :=
  let lowerName := jsToLower fieldName
  if typeString == "enum" then "select"
  else if typeString == "boolean" then "boolean"
  else
    match inputTypePatterns.find? (fun p => strIncludes lowerName p.1) with
    | some p => p.2
    | none =>
        if strIncludes lowerName "date" || strIncludes lowerName "time"
            || strIncludes lowerName "created"
            || strIncludes lowerName "updated"
            || typeString == "Timestamp" then "date"
        else if numericTypeStrings.contains typeString then "number"
        else "text"

/-- Embedding of `TypeAnalyzer.generateValidation`. -/
def generateValidation (typeString fieldName : String) : Validation :=
  let lowerName := jsToLower fieldName
  let required :=
    !strIncludes lowerName "optional" && !strIncludes typeString "Option"
  let bounds : Option (Int × Int) :=
    if typeString == "u8" then some (0, 255)
    else if typeString == "u16" then some (0, 65535)
    else if typeString == "u32" then some (0, 4294967295)
    else none
  let pat : Option String :=
    if typeString == "string" then
      if strIncludes lowerName "email" then some "^[^@]+@[^@]+\\.[^@]+$"
      else if strIncludes lowerName "url" then some "^https?://.*"
      else none
    else none
  { required := required, min := bounds.map Prod.fst,
    max := bounds.map Prod.snd, pattern := pat }

/-- Exported symbol of the generated module as the introspection layer
sees it: its export name, its `typeof` classification, the keys it
carries, and its `getTypeScriptAlgebraicType` payload when that accessor
exists. -/
structure ModuleSym where
  name : String
  isFunction : Bool
  isObject : Bool
  keys : List String
  algType : Option AlgebraicType

/-- Embedding of `TypeAnalyzer.findEnumConstructor`: scan the generated
module for a function- or object-typed export carrying any of the variant
names as a key, and return the first such export that carries the first
variant name; `none` when nothing matches. -/
def findEnumConstructor (mod : List ModuleSym) (enumValues : List String) :
    Option String :=
  let possibleEnums := mod.filter fun m =>
    (m.isFunction || m.isObject) && enumValues.any fun ev => m.keys.contains ev
  match enumValues.head? with
  | none => none
  | some testValue =>
      (possibleEnums.find? fun m => m.keys.contains testValue).map (·.name)

/-- Embedding of `TypeAnalyzer.enhanceEnumField`: fields typed "enum" that
carry an `enumValues` list get the best-effort constructor lookup; all
other fields pass through unchanged. -/
def enhanceEnumField (mod : List ModuleSym) (field : FieldMetadata) :
    FieldMetadata :=
  match field.enumValues with
  | some evs =>
      if field.type == "enum" then
        { field with enumConstructor := findEnumConstructor mod evs }
      else field
  | none => field

/-- Descriptor of one product element (the body of the map inside
`TypeAnalyzer.analyzeProductType`): named from the element's own name with
fallback "unknown". -/
def analyzeProductElement (e : Option String × AlgebraicType) :
    FieldMetadata :=
  let elName := e.1.getD "unknown"
  let rawName := e.1.getD ""
  { name := elName
    type := getTypeString e.2
    isOptional := isOptionalTy e.2
    isArray := isArrayTy e.2
    displayName := formatDisplayName elName
    inputType := inferInputType (getTypeString e.2) rawName
    validation := generateValidation (getTypeString e.2) rawName
    enumValues := extractEnumValues e.2
    enumConstructor := none }

/-- Embedding of `TypeAnalyzer.analyzeProductType`: one descriptor per
element. -/
def analyzeProductType (elements : List (Option String × AlgebraicType)) :
    List FieldMetadata :=
  elements.map analyzeProductElement

/-- Embedding of `TypeAnalyzer.analyzeSumType`: a single enum descriptor
whose values are all variant names, required, select input. -/
def analyzeSumType (variants : List (Option String × AlgebraicType))
    (name : String) : List FieldMetadata :=
  let enumValues := variants.map fun v => v.1.getD ""
  let n := if name == "" then "variant" else name
  [{ name := n
     type := "enum"
     isOptional := false
     isArray := false
     displayName := formatDisplayName n
     inputType := "select"
     validation := { required := true, min := none, max := none,
                     pattern := none }
     enumValues := some enumValues
     enumConstructor := none }]

/-- Embedding of `TypeAnalyzer.createFieldFromPrimitive`. -/
def createFieldFromPrimitive (t : AlgebraicType) (name : String) :
    FieldMetadata :=
  let typeString := getTypeString t
  let n := if name == "" then "value" else name
  { name := n
    type := typeString
    isOptional := false
    isArray := false
    displayName := formatDisplayName n
    inputType := inferInputType typeString name
    validation := generateValidation typeString name
    enumValues := none
    enumConstructor := none }

/-- The analyzer's memoization cache, keyed by the structural signature of
the input type (entries are only ever added, never overwritten). -/
abbrev AnalyzerCache := List (AlgebraicType × List FieldMetadata)

/-- Cache lookup by structural key equality. -/
def cacheLookup (c : AnalyzerCache) (t : AlgebraicType) :
    Option (List FieldMetadata) :=
  (c.find? fun e => atBeq e.1 t).map (·.2)

/-- Cache insertion (only reached on a lookup miss). -/
def cacheInsert (c : AnalyzerCache) (t : AlgebraicType)
    (fields : List FieldMetadata) : AnalyzerCache :=
  c ++ [(t, fields)]

/-- Embedding of `TypeAnalyzer.analyzeAlgebraicType`: serve a structurally
equal type from the cache, else dispatch on the type's shape, enhance enum
fields against the generated module, store, and return.  The cache is
threaded explicitly (the source mutates `this.typeCache`). -/
def analyzeAlgebraicType (mod : List ModuleSym) (c : AnalyzerCache)
    (t : AlgebraicType) (name : String) :
    List FieldMetadata × AnalyzerCache :=
  match cacheLookup c t with
  | some fields => (fields, c)
  | none =>
      let fields :=
        match t with
        | .product els => analyzeProductType els
        | .sum vs => analyzeSumType vs name
        | _ => [createFieldFromPrimitive t name]
      let fields := fields.map (enhanceEnumField mod)
      (fields, cacheInsert c t fields)

/-! ## Memoization lemmas and the determinism claim -/

/-! ## Claim C1: some/none sums -/

/-! ## Reducer invoker (src/src/hooks/spacetime/use-reducer-caller.ts)

JavaScript coercions are modelled on the integral value universe: numeric
string literals are optionally signed decimal integer strings (the claims
only exercise such strings), `Number` of a non-numeric non-empty string is
`NaN`, and `BigInt` of such a string throws. -/

/-- Accumulate the value of a decimal digit string; `none` on the first
non-digit. -/
def digitsValGo : List Char → Nat → Option Nat
  | [], acc => some acc
  | c :: cs, acc =>
      if c.isDigit then digitsValGo cs (acc * 10 + (c.toNat - 48))
      else none

/-- Parse an optionally signed decimal integer out of a trimmed character
list; the empty list parses as 0 (JavaScript's `Number("")` and
`BigInt("")`). -/
def parseTrimmedInt : List Char → Option Int
  | [] => some (0 : Int)
  | '-' :: ds =>
      if ds.isEmpty then none
      else (digitsValGo ds 0).map fun n => -(n : Int)
  | '+' :: ds =>
      if ds.isEmpty then none
      else (digitsValGo ds 0).map fun n => (n : Int)
  | ds => (digitsValGo ds 0).map fun n => (n : Int)

/-- Whitespace-trimmed character list of a string. -/
def trimChars (s : String) : List Char :=
  ((s.data.dropWhile Char.isWhitespace).reverse.dropWhile
    Char.isWhitespace).reverse

/-- Numeric interpretation of a string, shared by the `Number` and
`BigInt` models. -/
def parseNumericString (s : String) : Option Int :=
  parseTrimmedInt (trimChars s)

/-- Model of JavaScript `String(v)`. -/
def jsToString : JSValue → String
  | vUndefined => "undefined"
  | vBool b => if b then "true" else "false"
  | vNum n => toString n
  | vNaN => "NaN"
  | vStr s => s
  | vBigInt n => toString n
  | vObj _ => "[object Object]"

/-- Model of JavaScript `Number(v)` on the integral universe. -/
def jsNumber : JSValue → JSValue
  | vNum n => vNum n
  | vNaN => vNaN
  | vBool b => vNum (if b then 1 else 0)
  | vUndefined => vNaN
  | vStr s =>
      match parseNumericString s with
      | some n => vNum n
      | none => vNaN
  | vBigInt n => vNum n
  | vObj _ => vNaN

/-- Model of JavaScript `Boolean(v)`. -/
def jsTruthy : JSValue → Bool
  | vUndefined => false
  | vBool b => b
  | vNum n => n != 0
  | vNaN => false
  | vStr s => s != ""
  | vBigInt n => n != 0
  | vObj _ => true

/-- Model of JavaScript `BigInt(v)`: throws on `NaN`, `undefined`,
objects, and non-numeric strings. -/
def jsBigInt : JSValue → Except String JSValue
  | vBigInt n => .ok (vBigInt n)
  | vNum n => .ok (vBigInt n)
  | vBool b => .ok (vBigInt (if b then 1 else 0))
  | vStr s =>
      match parseNumericString s with
      | some n => .ok (vBigInt n)
      | none => .error "Cannot convert string to a BigInt"
  | vNaN => .error "NaN cannot be converted to a BigInt"
  | vUndefined => .error "Cannot convert undefined to a BigInt"
  | vObj _ => .error "Cannot convert object to a BigInt"

/-- Embedding of `toCamelCase` from use-reducer-caller.ts: every
underscore followed by an ASCII lowercase letter becomes that letter
upper-cased. -/
def toCamelCaseGo : List Char → List Char
  | [] => []
  | ['_'] => ['_']
  | '_' :: c :: rest =>
      if c.isLower then c.toUpper :: toCamelCaseGo rest
      else '_' :: toCamelCaseGo (c :: rest)
  | c :: rest => c :: toCamelCaseGo rest

/-- String-level `toCamelCase`. -/
def toCamelCase (s : String) : String := String.mk (toCamelCaseGo s.data)

/-- Argument bags are JavaScript objects: ordered own properties. -/
abbrev ArgBag := List (String × JSValue)

/-- Property read `bag[key]`, `undefined` when absent. -/
def bagGet (bag : ArgBag) (key : String) : JSValue :=
  ((bag.find? fun e => e.1 == key).map (·.2)).getD vUndefined

/-- Property write `bag[key] = v`: replace the first binding, or append. -/
def bagSet (bag : ArgBag) (key : String) (v : JSValue) : ArgBag :=
  match bag with
  | [] => [(key, v)]
  | (k, w) :: rest =>
      if k == key then (key, v) :: rest else (k, w) :: bagSet rest key v

/-- Embedding of `convertArgsToObject`: re-key every bag entry by the
camel-cased key, in insertion order. -/
def convertArgsToObject (args : ArgBag) : ArgBag :=
  args.foldl (fun acc kv => bagSet acc (toCamelCase kv.1) kv.2) []

/-- Embedding of `convertValueByType`: strings via `String(…)`, 64-bit
integer kinds via `BigInt(…)` (which can throw), booleans via
`Boolean(…)`, the remaining `u*`/`i*`/`f*` kinds via `Number(…)`, anything
else passed through. -/
def convertValueByType (value : JSValue) (type : String) :
    Except String JSValue :=
  if type == "string" || strIncludes type "String" then
    .ok (vStr (jsToString value))
  else if type == "u64" || type == "i64" then jsBigInt value
  else if type == "boolean" || type == "Bool" then
    .ok (vBool (jsTruthy value))
  else if strStartsWith type "u" || strStartsWith type "i"
      || strStartsWith type "f" then
    .ok (jsNumber value)
  else .ok value

/-- The values an optional field elides (the source's
`value === null || value === undefined || value === ""`). -/
def isEmptyish : JSValue → Bool
  | vUndefined => true
  | vStr s => s == ""
  | _ => false

/-- Embedding of `createOrderedArgs`: for each catalog field in declared
order, read the (camel-cased) bag value, convert it by type tag unless it
is absent, and elide empty optionals as `undefined`.  A conversion throw
aborts the whole list. -/
def createOrderedArgs (fields : List FieldMetadata) (convertedArgs : ArgBag) :
    Except String (List JSValue) :=
  fields.mapM fun field => do
    let value := bagGet convertedArgs field.name
    let value ←
      match value with
      | vUndefined => pure vUndefined
      | v => convertValueByType v field.type
    if field.isOptional && isEmptyish value then pure vUndefined
    else pure value

/-- Reducer catalog entry, restricted to the projection the invoker and
the discovery claims read (presentation-only strings such as description,
icon and color are omitted). -/
structure ReducerMetadata where
  name : String
  displayName : String
  category : String
  fields : List FieldMetadata
  exampleArgs : ArgBag
deriving Repr

/-- The live session surface the invoker consults: the callable method
names of `connection.reducers`. -/
structure Session where
  reducerMethods : List String
deriving Repr

/-- Failure modes of `callReducer`. -/
inductive CallError where
  | notConnected
  | unknownReducer (reducerName : String)
  | methodMissing (methodName : String)
  | conversionFailed (msg : String)
deriving DecidableEq, Repr

/-- Embedding of `useReducerCaller.callReducer` up to the point the remote
call is issued: on success it returns the camel-cased method name and the
positional argument list passed to `reducerMethod.call`; every failure is
an error and produces no call.  (The source mutates no state on any
path.) -/
def callReducer (connection : Option Session)
    (discoveredReducers : List ReducerMetadata) (reducerName : String)
    (args : ArgBag) : Except CallError (String × List JSValue) :=
  match connection with
  | none => .error .notConnected
  | some session =>
      match discoveredReducers.find? fun r => r.name == reducerName with
      | none => .error (.unknownReducer reducerName)
      | some reducerMetadata =>
          let camelCaseMethodName := toCamelCase reducerName
          if session.reducerMethods.contains camelCaseMethodName then
            match createOrderedArgs reducerMetadata.fields
                (convertArgsToObject args) with
            | .ok orderedArgs => .ok (camelCaseMethodName, orderedArgs)
            | .error msg => .error (.conversionFailed msg)
          else .error (.methodMissing camelCaseMethodName)

/-! ## Claims C2 and C6: invocation marshalling and failure modes -/

/-- Catalog descriptor of the required `u32` field `a` of the reducer the
marshalling claim fixes. -/
def fieldU32A : FieldMetadata :=
  { name := "a", type := "u32", isOptional := false, isArray := false,
    displayName := "A", inputType := "number",
    validation := { required := true, min := some 0,
                    max := some 4294967295, pattern := none },
    enumValues := none, enumConstructor := none }

/-- Catalog descriptor of the optional `string` field `b` of the reducer
the marshalling claim fixes. -/
def fieldStrOptB : FieldMetadata :=
  { name := "b", type := "string", isOptional := true, isArray := false,
    displayName := "B", inputType := "text",
    validation := { required := true, min := none, max := none,
                    pattern := none },
    enumValues := none, enumConstructor := none }

/-- Catalog entry for the reducer `create_item` with fields
`[a: u32, b: string optional]` and a recorded example value 42 for `a`. -/
def demoCreateItem : ReducerMetadata :=
  { name := "create_item", displayName := "Create Item",
    category := "Content & Media", fields := [fieldU32A, fieldStrOptB],
    exampleArgs := [("a", vNum 42)] }

/-- Catalog entry for a reducer `set_quota` with a single required `u64`
field, used to exhibit the conversion failure mode. -/
def demoSetQuota : ReducerMetadata :=
  { name := "set_quota", displayName := "Set Quota", category := "Other",
    fields := [{ name := "limit", type := "u64", isOptional := false,
                 isArray := false, displayName := "Limit",
                 inputType := "number",
                 validation := { required := true, min := none,
                                 max := none, pattern := none },
                 enumValues := none, enumConstructor := none }],
    exampleArgs := [] }

/-! ## Connection state machine (useSpacetimeDB `connect` / `disconnect`)

The hook's mutable pieces are modelled as one record: the Redux
`connectionStatus`, the `useConnectionState` ref flags, whether a
connection object is stored, and the pending `setTimeout` timers.  Each
callback of the source (the `connect` entry, the `onConnect`,
`onConnectError` and catch handlers, `disconnect`, and a timer firing) is
one event of the step function.  The `onConnectError` handler and the
catch branch share one model case: their flag/retry logic is identical.
Timers carry their programmed delay in milliseconds; firing one removes
it from the pending list and runs its body. -/

/-- Redux connection status. -/
inductive ConnStatus where
  | disconnected | connecting | connected | error
deriving DecidableEq, Repr

/-- A pending `setTimeout`: a scheduled retry carrying its delay and the
attempt number it will pass to `connect`, or the intentional-flag grace
clear. -/
inductive TimerEvent where
  | retry (delayMs : Nat) (attempt : Nat)
  | clearIntentional (delayMs : Nat)
deriving DecidableEq, Repr

/-- Connection configuration (spacetimeConfig's retry fields). -/
structure ConnConfig where
  maxRetries : Nat
  retryBackoffMultiplier : Nat
deriving DecidableEq, Repr

/-- Mutable state of the connection machinery. -/
structure ConnState where
  status : ConnStatus
  isConnecting : Bool
  intentionalDisconnect : Bool
  hasConnection : Bool
  scheduled : List TimerEvent
deriving DecidableEq, Repr

/-- Initial state: disconnected, flags clear, nothing scheduled. -/
def initConnState : ConnState :=
  { status := .disconnected, isConnecting := false,
    intentionalDisconnect := false, hasConnection := false,
    scheduled := [] }

/-- Events driving the machine. -/
inductive ConnEvent where
  | connectCall (attempt : Nat)
  | connectSuccess
  | connectError (attempt : Nat)
  | disconnectCall
  | fireRetry (attempt : Nat)
  | fireClear
deriving DecidableEq, Repr

/-- Whether a pending timer is a retry for the given attempt. -/
def isRetryFor (n : Nat) : TimerEvent → Bool
  | .retry _ m => m == n
  | .clearIntentional _ => false

/-- Whether a pending timer is the grace clear. -/
def isClearTimer : TimerEvent → Bool
  | .retry _ _ => false
  | .clearIntentional _ => true

/-- Remove the first pending timer satisfying a predicate (the timer that
just fired). -/
def removeFirstTimer (p : TimerEvent → Bool) :
    List TimerEvent → List TimerEvent
  | [] => []
  | e :: rest => if p e then rest else e :: removeFirstTimer p rest

/-- Entry guard and body of `connect`.  The guard's `isConnecting()` is a
live ref read, but its `isConnected` is a render-scope constant captured
by the particular `connect` closure being invoked, not a fresh status
read; callers therefore supply the snapshot their closure holds.  A
user-initiated call runs the current render's closure, whose snapshot
reflects the current status; the closure a retry timer invokes captured
`isConnected = false`, because the `connect` run that scheduled the timer
had itself just passed this guard.  Past the guard: transition to
connecting, raise the ref flag, clear the intentional flag. -/
def connectEntry (isConnectedSnap : Bool) (s : ConnState) : ConnState :=
  if s.isConnecting || isConnectedSnap then s
  else
    { s with
        status := .connecting
        isConnecting := true
        intentionalDisconnect := false }

/-- One callback execution.  `connectError n` is the failure handler of
the attempt-`n` `connect` call: when the disconnect is not intentional it
records the error and, for `n < maxRetries`, schedules a retry of attempt
`n+1` after `retryBackoffMultiplier × 1000 × (n+1)` milliseconds; when
intentional it clears the flag and settles at disconnected.  `disconnect`
is guarded on a stored connection; it raises the intentional flag and
schedules the 1000 ms grace clear.  A firing timer is removed from the
pending list and runs `connect` (for retries, with the stale captured
`isConnected = false` snapshot) or clears the flag. -/
def connStep (cfg : ConnConfig) (s : ConnState) : ConnEvent → ConnState
  | .connectCall _ => connectEntry (s.status == .connected) s
  | .connectSuccess =>
      { s with
          status := .connected
          isConnecting := false
          hasConnection := true }
  | .connectError n =>
      if s.intentionalDisconnect then
        { s with
            isConnecting := false
            intentionalDisconnect := false
            status := .disconnected }
      else
        let retryTimer :=
          TimerEvent.retry (cfg.retryBackoffMultiplier * 1000 * (n + 1))
            (n + 1)
        let s' := { s with isConnecting := false, status := .error }
        if n < cfg.maxRetries then
          { s' with scheduled := s'.scheduled ++ [retryTimer] }
        else s'
  | .disconnectCall =>
      if s.hasConnection then
        { s with
            intentionalDisconnect := true
            isConnecting := false
            status := .disconnected
            hasConnection := false
            scheduled := s.scheduled ++ [TimerEvent.clearIntentional 1000] }
      else s
  | .fireRetry n =>
      if s.scheduled.any (isRetryFor n) then
        connectEntry false
          { s with
              scheduled := removeFirstTimer (isRetryFor n) s.scheduled }
      else s
  | .fireClear =>
      if s.scheduled.any isClearTimer then
        { s with
            intentionalDisconnect := false
            scheduled := removeFirstTimer isClearTimer s.scheduled }
      else s

/-- Run of the machine over an event sequence. -/
def connRun (cfg : ConnConfig) (s : ConnState) (evs : List ConnEvent) :
    ConnState :=
  evs.foldl (connStep cfg) s

/-- Configuration used by the C5 counterexample trace: three retries,
backoff multiplier 2. -/
def cexConnConfig : ConnConfig :=
  { maxRetries := 3, retryBackoffMultiplier := 2 }

/-- Event prefix of the C5 counterexample: a failed attempt schedules a
2000 ms retry of attempt 1; a manual reconnect succeeds; the user then
disconnects intentionally. -/
def cexPrefixEvents : List ConnEvent :=
  [.connectCall 0, .connectError 0, .connectCall 0, .connectSuccess,
   .disconnectCall]

/-! ## Module discovery and the introspector
(src ModuleDiscovery, categorization.ts, SpacetimeIntrospector)

The generated module namespace is the introspector's input: its exported
symbols (with their `typeof` classification, keys, and optional
`getTypeScriptAlgebraicType` payload) and the own method names of
`RemoteReducers.prototype`.  `exampleArgs` generation
(ExampleGenerator.generateExampleArgs) draws on `Math.random` and faker,
so it is modelled as an arbitrary function parameter; the discovery
theorems quantify over it.  Sorting models the engine's stable
`Array.prototype.sort`, with `localeCompare` modelled by the string
order. -/

/-- Suffix test on strings. -/
def strEndsWith (s suf : String) : Bool :=
  charsLeadWith suf.data.reverse s.data.reverse

/-- Replace the first occurrence of `pat` by nothing (JavaScript
`s.replace(pat, "")` with a string pattern replaces only the first
occurrence). -/
def replaceFirstChars (cs pat : List Char) : List Char :=
  match cs with
  | [] => []
  | c :: rest =>
      if charsLeadWith pat (c :: rest) then (c :: rest).drop pat.length
      else c :: replaceFirstChars rest pat

/-- String-level first-occurrence deletion. -/
def strDropFirst (s pat : String) : String :=
  String.mk (replaceFirstChars s.data pat.data)

/-- Embedding of `toSnakeCase` from SpacetimeIntrospector: prefix every
ASCII uppercase letter with an underscore, lower-case everything, then
drop one leading underscore. -/
def toSnakeCase (s : String) : String :=
  let expanded := s.data.foldr
    (fun c acc => if c.isUpper then '_' :: c :: acc else c :: acc) []
  let lowered := expanded.map Char.toLower
  String.mk (match lowered with
    | '_' :: rest => rest
    | l => l)

/-- The category/pattern taxonomy of categorization.ts, in source
order. -/
def categoryPatterns : List (String × List String) :=
  [("User Management",
    ["user", "profile", "account", "identity", "auth", "login",
     "register", "signup", "signin", "credential", "member", "player"]),
   ("Room & Sessions",
    ["room", "session", "lobby", "channel", "group", "party", "match",
     "game", "instance", "server", "join", "leave", "enter", "exit"]),
   ("Content & Media",
    ["block", "item", "asset", "media", "file", "image", "document",
     "content", "post", "message", "comment", "data"]),
   ("Financial",
    ["currency", "money", "coin", "token", "price", "cost", "payment",
     "transaction", "wallet", "balance", "revenue", "earning"]),
   ("Configuration",
    ["config", "setting", "preference", "option", "template", "schema",
     "rule", "policy", "parameter", "default"]),
   ("Analytics",
    ["stat", "metric", "analytics", "report", "log", "event", "tracking",
     "monitor", "performance", "usage", "activity"]),
   ("System",
    ["init", "setup", "install", "deploy", "system", "admin", "manage",
     "control", "process", "service", "daemon"]),
   ("Security",
    ["permission", "role", "access", "security", "auth", "token",
     "secret", "key", "encrypt", "decrypt", "hash"])]

/-- Embedding of `categorizeItem`: first category whose pattern list has a
substring match against the lower-cased name, else "Other". -/
def categorizeItem (name : String) : String :=
  let lowerName := jsToLower name
  match categoryPatterns.find?
      (fun cp => cp.2.any fun pat => strIncludes lowerName pat) with
  | some cp => cp.1
  | none => "Other"

/-- The generated module namespace as discovery consumes it. -/
structure ModuleModel where
  exports : List ModuleSym
  remoteReducers : Option (List String)

/-- Embedding of `ModuleDiscovery.findTableHandles`: function-typed
exports whose name ends in "TableHandle". -/
def findTableHandles (mod : ModuleModel) : List String :=
  (mod.exports.filter fun s =>
    strEndsWith s.name "TableHandle" && s.isFunction).map (·.name)

/-- Whether the named export exists and offers the
`getTypeScriptAlgebraicType` accessor. -/
def hasAlgType (mod : ModuleModel) (n : String) : Bool :=
  ((mod.exports.find? fun s => s.name == n).map
    (·.algType.isSome)).getD false

/-- Embedding of `ModuleDiscovery.findTableTypes`: strip the
"TableHandle" suffix and keep names whose export has a type accessor. -/
def findTableTypes (mod : ModuleModel) : List String :=
  ((findTableHandles mod).map fun h =>
    strDropFirst h "TableHandle").filter (hasAlgType mod)

/-- Embedding of `ModuleDiscovery.findReducerTypes`: own methods of
`RemoteReducers.prototype` other than the constructor and the `on…` /
`removeOn…` event-subscription surface, upper-cased to type names and
filtered for a type accessor. -/
def findReducerTypes (mod : ModuleModel) : List String :=
  match mod.remoteReducers with
  | none => []
  | some methods =>
      ((methods.filter fun nm =>
          nm != "constructor" && !strStartsWith nm "on"
            && !strStartsWith nm "removeOn").map
        capitalizeWord).filter (hasAlgType mod)

/-- Table catalog entry, restricted to the projection the discovery claims
read (description, icon and actions are presentation-only and omitted). -/
structure TableMetadata where
  name : String
  displayName : String
  primaryKey : String
  fields : List FieldMetadata
  category : String
deriving Repr

/-- Embedding of `SpacetimeIntrospector.inferPrimaryKey`: first field
named "id", ending in "_id" or named "identity"; else the first field's
name; else "id".  (A found field's name is necessarily non-empty, so the
source's falsy fallback on `idField?.name` cannot fire.) -/
def inferPrimaryKey (fields : List FieldMetadata) : String :=
  match fields.find? fun f =>
      f.name == "id" || strEndsWith f.name "_id" || f.name == "identity"
    with
  | some f => f.name
  | none =>
      match fields.head? with
      | some f0 => f0.name
      | none => "id"

/-- The algebraic type reachable for an exported symbol name, as the
introspector's `GeneratedModule[name]?.getTypeScriptAlgebraicType()`. -/
def symbolAlgType (mod : ModuleModel) (n : String) : Option AlgebraicType :=
  (mod.exports.find? fun s => s.name == n).bind (·.algType)

/-- Shared body of the two discovery loops: walk the discovered symbol
names, skip symbols without a reachable type, analyze the rest with the
shared memoizing analyzer, and thread the cache. -/
def introspectSyms (mod : ModuleModel) (names : List String)
    (c : AnalyzerCache) :
    List (String × List FieldMetadata) × AnalyzerCache :=
  match names with
  | [] => ([], c)
  | n :: rest =>
      match symbolAlgType mod n with
      | none => introspectSyms mod rest c
      | some t =>
          let r1 := analyzeAlgebraicType mod.exports c t n
          let r2 := introspectSyms mod rest r1.2
          ((n, r1.1) :: r2.1, r2.2)

/-- Insert into a sorted list, before the first element the new element
does not strictly follow (stable insertion). -/
def insSorted {α : Type} (le : α → α → Bool) (a : α) :
    List α → List α
  | [] => [a]
  | b :: rest => if le a b then a :: b :: rest else b :: insSorted le a rest

/-- Stable insertion sort, modelling the stable `Array.prototype.sort`. -/
def insSort {α : Type} (le : α → α → Bool) : List α → List α
  | [] => []
  | a :: rest => insSorted le a (insSort le rest)

/-- Table sort key: display name (the source's `localeCompare` modelled by
the string order). -/
def tableLE (a b : TableMetadata) : Bool :=
  decide (a.displayName ≤ b.displayName)

/-- Reducer sort key: category, then display name. -/
def reducerLE (a b : ReducerMetadata) : Bool :=
  if a.category == b.category then decide (a.displayName ≤ b.displayName)
  else decide (a.category < b.category)

/-- Catalog entry built from one analyzed table symbol. -/
def mkTableMeta (p : String × List FieldMetadata) : TableMetadata :=
  { name := toSnakeCase p.1
    displayName := formatDisplayName p.1
    primaryKey := inferPrimaryKey p.2
    fields := p.2
    category := categorizeItem p.1 }

/-- Catalog entry built from one analyzed reducer symbol; `g` is the
example-argument generator (randomised in the source). -/
def mkReducerMeta (g : List FieldMetadata → ArgBag)
    (p : String × List FieldMetadata) : ReducerMetadata :=
  { name := toSnakeCase p.1
    displayName := formatDisplayName p.1
    category := categorizeItem p.1
    fields := p.2
    exampleArgs := g p.2 }

/-- Embedding of `SpacetimeIntrospector.discoverTables`: analyze every
discovered table symbol, build catalog entries, sort by display name. -/
def discoverTables (mod : ModuleModel) (c : AnalyzerCache) :
    List TableMetadata × AnalyzerCache :=
  let r := introspectSyms mod (findTableTypes mod) c
  (insSort tableLE (r.1.map mkTableMeta), r.2)

/-- Embedding of `SpacetimeIntrospector.discoverReducers`: analyze every
discovered reducer symbol, build catalog entries (example arguments via
`g`), sort by category then display name. -/
def discoverReducers (mod : ModuleModel) (g : List FieldMetadata → ArgBag)
    (c : AnalyzerCache) : List ReducerMetadata × AnalyzerCache :=
  let r := introspectSyms mod (findReducerTypes mod) c
  (insSort reducerLE (r.1.map (mkReducerMeta g)), r.2)

/-! ## Theorems -/

/-- Assignment makes the assigned table readable. -/
theorem lookupTable_setKey_self (s : MirrorState) (t : String)
    (data : List JSValue) : lookupTable (setKey s t data) t = some data := by
  induction s with
  | nil => simp [setKey, lookupTable]
  | cons hd rest ih =>
      obtain ⟨k, rows⟩ := hd
      by_cases h : k == t
      · simp [setKey, lookupTable, h]
      · simp [setKey, lookupTable, h, ih]

/-- In-place modification acts on the stored row array and nothing else
at the modified key. -/
theorem lookupTable_modifyKey_self (s : MirrorState) (t : String)
    (f : List JSValue → List JSValue) :
    lookupTable (modifyKey s t f) t = (lookupTable s t).map f := by
  induction s with
  | nil => simp [modifyKey, lookupTable]
  | cons hd rest ih =>
      obtain ⟨k, rows⟩ := hd
      by_cases h : k == t
      · simp [modifyKey, lookupTable, h]
      · simp [modifyKey, lookupTable, h, ih]

/-- States lacking the key are unchanged by in-place modification. -/
theorem modifyKey_absent (s : MirrorState) (t : String)
    (f : List JSValue → List JSValue) (h : lookupTable s t = none) :
    modifyKey s t f = s := by
  induction s with
  | nil => simp [modifyKey]
  | cons hd rest ih =>
      obtain ⟨k, rows⟩ := hd
      by_cases hk : k == t
      · simp [lookupTable, hk] at h
      · simp [lookupTable, hk] at h
        simp [modifyKey, hk, ih h]

/-- In-place modification by a function that fixes the stored rows is the
identity on the whole state. -/
theorem modifyKey_fixed (s : MirrorState) (t : String)
    (f : List JSValue → List JSValue)
    (h : ∀ rows, lookupTable s t = some rows → f rows = rows) :
    modifyKey s t f = s := by
  induction s with
  | nil => simp [modifyKey]
  | cons hd rest ih =>
      obtain ⟨k, rows⟩ := hd
      by_cases hk : k == t
      · have hrows : f rows = rows := by
          apply h
          simp [lookupTable, hk]
        have hkt : k = t := by
          simpa using hk
        simp [modifyKey, hk, hrows, hkt]
      · have h' : ∀ rows, lookupTable rest t = some rows → f rows = rows := by
          intro rs hrs
          apply h
          simpa [lookupTable, hk] using hrs
        simp [modifyKey, hk, ih h']

/-- A predicate false on every list element yields no index. -/
theorem findIdx?_none_of_all_false {α : Type} (p : α → Bool) (l : List α)
    (h : ∀ a ∈ l, p a = false) : l.findIdx? p = none := by
  induction l with
  | nil => simp
  | cons hd tl ih =>
      have hhd : p hd = false := h hd (by simp)
      have htl : ∀ a ∈ tl, p a = false := fun a ha => h a (by simp [ha])
      simp [List.findIdx?, hhd]
      simpa [List.findIdx?_succ] using ih htl

/-- Dispatching a lifted per-table notification is an in-place
modification of that table by the spec fold's step. -/
theorem applySliceAction_liftOp (s : MirrorState) (t : String)
    (op : TableOp) :
    applySliceAction s (liftOp t op)
      = modifyKey s t (fun rows => replayStep rows op) := by
  cases op <;> rfl

/-- CLAIM C3.  For every table, every prior state, every seed row set and
every finite sequence of insert/update/delete notifications dispatched
after the seed, the mirror's resulting row array for that table equals the
spec's pure left fold of those operations over an empty collection (the
seed replaces the collection wholesale, insert appends, update replaces
the row located by primary-key equality, delete removes it). -/
theorem mirror_state_is_pure_fold (s : MirrorState) (t : String)
    (data : List JSValue) (ops : List TableOp) :
    lookupTable
      (applySliceActions s (SliceAction.setData t data :: ops.map (liftOp t))) t
      = some (replay data ops) := by
  have step : ∀ (ops : List TableOp) (s : MirrorState) (rows : List JSValue),
      lookupTable s t = some rows →
      lookupTable (applySliceActions s (ops.map (liftOp t))) t
        = some (replay rows ops) := by
    intro ops
    induction ops with
    | nil =>
        intro s rows h
        simpa [applySliceActions, replay] using h
    | cons op rest ih =>
        intro s rows h
        have h1 : lookupTable (applySliceAction s (liftOp t op)) t
            = some (replayStep rows op) := by
          rw [applySliceAction_liftOp, lookupTable_modifyKey_self, h]
          rfl
        have h2 := ih (applySliceAction s (liftOp t op)) (replayStep rows op) h1
        simpa [applySliceActions, replay] using h2
  have hseed : lookupTable (applySliceAction s (.setData t data)) t
      = some data := by
    simpa [applySliceAction] using lookupTable_setKey_self s t data
  have := step ops (applySliceAction s (.setData t data)) data hseed
  simpa [applySliceActions] using this

/-- CLAIM C9.  The mirror's primary-key comparison compares the declared
primary-key property of the two compared values when both are
object-shaped and falls back to raw `===` equality when either is not;
`updateTableRow` and `deleteTableRow` locate the affected row as the first
row satisfying exactly this comparison against the payload's primary
value, replacing respectively removing it there. -/
theorem comparePrimaryKeys_shape_and_row_location :
    (∀ (a b : JSValue) (pk : String),
      isObjectShaped a = true → isObjectShaped b = true →
      comparePrimaryKeys a b pk = jsEq (getProp a pk) (getProp b pk))
    ∧ (∀ (a b : JSValue) (pk : String),
      (isObjectShaped a && isObjectShaped b) = false →
      comparePrimaryKeys a b pk = jsEq a b)
    ∧ (∀ (s : MirrorState) (t pk : String) (pv row : JSValue)
        (rows : List JSValue) (i : Nat),
      lookupTable s t = some rows →
      rows.findIdx? (rowMatches pk pv) = some i →
      lookupTable (applySliceAction s (.updateRow t pk pv row)) t
          = some (rows.set i row)
        ∧ lookupTable (applySliceAction s (.deleteRow t pk pv)) t
          = some (rows.eraseIdx i)) := by
  refine ⟨?_, ?_, ?_⟩
  · intro a b pk ha hb
    simp [comparePrimaryKeys, ha, hb]
  · intro a b pk h
    simp [comparePrimaryKeys, h]
  · intro s t pk pv row rows i hs hi
    constructor
    · rw [applySliceAction, lookupTable_modifyKey_self, hs]
      simp [hi]
    · rw [applySliceAction, lookupTable_modifyKey_self, hs]
      simp [hi]

/-- Witness for C9 at concrete inputs: two object-shaped values compare by
their `id` property, a primitive against an object falls back to `===`,
and an update with a matching key replaces exactly the located row. -/
theorem comparePrimaryKeys_shape_and_row_location_witness :
    comparePrimaryKeys (vObj [("id", vNum 3)]) (vObj [("id", vNum 3)]) "id"
        = jsEq (getProp (vObj [("id", vNum 3)]) "id")
            (getProp (vObj [("id", vNum 3)]) "id")
      ∧ comparePrimaryKeys (vNum 3) (vObj [("id", vNum 3)]) "id"
        = jsEq (vNum 3) (vObj [("id", vNum 3)])
      ∧ lookupTable
          (applySliceAction [("user", [vObj [("id", vNum 3)]])]
            (.updateRow "user" "id" (vNum 3) (vObj [("id", vNum 4)]))) "user"
        = some ([vObj [("id", vNum 3)]].set 0 (vObj [("id", vNum 4)])) := by
  refine ⟨comparePrimaryKeys_shape_and_row_location.1 _ _ _ (by decide)
      (by decide),
    comparePrimaryKeys_shape_and_row_location.2.1 _ _ _ (by decide), ?_⟩
  exact (comparePrimaryKeys_shape_and_row_location.2.2
    [("user", [vObj [("id", vNum 3)]])] "user" "id" (vNum 3)
    (vObj [("id", vNum 4)]) [vObj [("id", vNum 3)]] 0 (by rfl) (by decide)).1

/-- CLAIM C10.  An `updateTableRow` or `deleteTableRow` action whose
primary value matches no stored row of the named table leaves the whole
state unchanged (and, the reducers being total functions here, cannot
throw), and an `insertTableRow` action for a table name that was never
initialised also leaves the state unchanged — the row is silently
dropped. -/
theorem unmatched_mirror_ops_are_noops (s : MirrorState) (t pk : String)
    (pv row : JSValue) :
    ((∀ r ∈ (lookupTable s t).getD [], rowMatches pk pv r = false) →
      applySliceAction s (.updateRow t pk pv row) = s
        ∧ applySliceAction s (.deleteRow t pk pv) = s)
    ∧ (lookupTable s t = none →
      applySliceAction s (.insertRow t row) = s) := by
  constructor
  · intro hnone
    have hfix : ∀ (g : List JSValue → Nat → List JSValue),
        modifyKey s t (fun rows =>
          match rows.findIdx? (rowMatches pk pv) with
          | some i => g rows i
          | none => rows) = s := by
      intro g
      apply modifyKey_fixed
      intro rows hrows
      have hall : ∀ r ∈ rows, rowMatches pk pv r = false := by
        intro r hr
        have := hnone r
        rw [hrows] at this
        exact this (by simpa using hr)
      rw [findIdx?_none_of_all_false _ _ hall]
    exact ⟨hfix (fun rows i => rows.set i row),
      hfix (fun rows i => rows.eraseIdx i)⟩
  · intro hnone
    exact modifyKey_absent s t _ hnone

/-- Witness for C10 at concrete inputs: on a state holding one `user` row
with id 1, an update and a delete aimed at id 2 change nothing, and an
insert into the never-initialised table `ghost` changes nothing. -/
theorem unmatched_mirror_ops_are_noops_witness :
    (applySliceAction [("user", [vObj [("id", vNum 1)]])]
        (.updateRow "user" "id" (vNum 2) (vObj [("id", vNum 2)]))
      = [("user", [vObj [("id", vNum 1)]])])
    ∧ (applySliceAction [("user", [vObj [("id", vNum 1)]])]
        (.deleteRow "user" "id" (vNum 2))
      = [("user", [vObj [("id", vNum 1)]])])
    ∧ (applySliceAction [("user", [vObj [("id", vNum 1)]])]
        (.insertRow "ghost" (vObj [("id", vNum 9)]))
      = [("user", [vObj [("id", vNum 1)]])]) := by
  have h := unmatched_mirror_ops_are_noops
    [("user", [vObj [("id", vNum 1)]])] "user" "id" (vNum 2)
    (vObj [("id", vNum 2)])
  have h2 := unmatched_mirror_ops_are_noops
    [("user", [vObj [("id", vNum 1)]])] "ghost" "id" (vNum 9)
    (vObj [("id", vNum 9)])
  have hu := h.1 (by decide)
  refine ⟨hu.1, hu.2, ?_⟩
  exact h2.2 (by rfl)

mutual

/-- Structural equality is reflexive. -/
theorem atBeq_refl : ∀ (t : AlgebraicType), atBeq t t = true
  | .prim k => by simp [atBeq]
  | .product els => by simpa [atBeq] using atBeqList_refl els
  | .sum els => by simpa [atBeq] using atBeqList_refl els
  | .arr e => by simp [atBeq, atBeq_refl e]
  | .mapTy k v => by simp [atBeq, atBeq_refl k, atBeq_refl v]
  | .special k => by simp [atBeq]

/-- Pointwise structural equality is reflexive. -/
theorem atBeqList_refl :
    ∀ (l : List (Option String × AlgebraicType)), atBeq.atBeqList l l = true
  | [] => by simp [atBeq.atBeqList]
  | (n, t) :: rest => by
      simp [atBeq.atBeqList, atBeq_refl t, atBeqList_refl rest]

end

/-- A cache miss followed by insertion makes the key readable, yielding
exactly the inserted fields. -/
theorem cacheLookup_insert_self (c : AnalyzerCache) (t : AlgebraicType)
    (fs : List FieldMetadata) (h : cacheLookup c t = none) :
    cacheLookup (cacheInsert c t fs) t = some fs := by
  induction c with
  | nil => simp [cacheLookup, cacheInsert, List.find?, atBeq_refl t]
  | cons hd rest ih =>
      by_cases hk : atBeq hd.1 t
      · simp [cacheLookup, List.find?, hk] at h
      · simp only [cacheLookup, cacheInsert, List.cons_append, List.find?,
          hk] at h ⊢
        exact ih h

/-- Cache lookups survive appending further entries. -/
theorem cacheLookup_append (c l : AnalyzerCache) (t : AlgebraicType)
    (v : List FieldMetadata) (h : cacheLookup c t = some v) :
    cacheLookup (c ++ l) t = some v := by
  induction c with
  | nil => simp [cacheLookup] at h
  | cons hd rest ih =>
      by_cases hk : atBeq hd.1 t
      · simp only [cacheLookup, List.find?, hk] at h ⊢
        simpa using h
      · simp only [cacheLookup, List.cons_append, List.find?, hk] at h ⊢
        exact ih h

/-- After a call of the analyzer, its result is readable from the
resulting cache under the analyzed type's structural key. -/
theorem analyze_caches_result (mod : List ModuleSym) (c : AnalyzerCache)
    (t : AlgebraicType) (name : String) :
    cacheLookup (analyzeAlgebraicType mod c t name).2 t
      = some (analyzeAlgebraicType mod c t name).1 := by
  unfold analyzeAlgebraicType
  cases h : cacheLookup c t with
  | some fields => simp [h]
  | none => simpa [h] using cacheLookup_insert_self c t _ h

/-- Analyzer calls never invalidate existing cache entries. -/
theorem analyze_preserves_cache (mod : List ModuleSym) (c : AnalyzerCache)
    (t t' : AlgebraicType) (name : String) (v : List FieldMetadata)
    (h : cacheLookup c t' = some v) :
    cacheLookup (analyzeAlgebraicType mod c t name).2 t' = some v := by
  unfold analyzeAlgebraicType
  cases hl : cacheLookup c t with
  | some fields => simpa [hl] using h
  | none => simpa [hl, cacheInsert] using cacheLookup_append c _ t' v h

/-- CLAIM C8.  Analysis is deterministic and memoization-stable: a second
call with a structurally equal type tree returns a descriptor list with
identical field order and content, served from the cache (the cache is
unchanged and no recomputation occurs — the second call's context name is
not even consulted). -/
theorem analyze_memoization_stable (mod : List ModuleSym)
    (c : AnalyzerCache) (t : AlgebraicType) (name1 name2 : String) :
    analyzeAlgebraicType mod (analyzeAlgebraicType mod c t name1).2 t name2
      = ((analyzeAlgebraicType mod c t name1).1,
         (analyzeAlgebraicType mod c t name1).2) := by
  have hit : ∀ (c' : AnalyzerCache) (v : List FieldMetadata) (nm : String),
      cacheLookup c' t = some v →
      analyzeAlgebraicType mod c' t nm = (v, c') := by
    intro c' v nm h
    unfold analyzeAlgebraicType
    rw [h]
  exact hit _ _ _ (analyze_caches_result mod c t name1)

/-- The type string of a non-sum type is never "enum". -/
theorem getTypeString_ne_enum (t : AlgebraicType)
    (h : ∀ vs, t ≠ .sum vs) : getTypeString t ≠ "enum" := by
  have hgt : (">" : String).length = 1 := rfl
  have hen : ("enum" : String).length = 4 := rfl
  cases t with
  | prim k => cases k <;> decide
  | product els => simp [getTypeString]
  | sum vs => exact absurd rfl (h vs)
  | arr e =>
      intro hEq
      rw [getTypeString] at hEq
      have hl := congrArg String.length hEq
      simp only [String.length_append] at hl
      have har : ("Array<" : String).length = 6 := rfl
      omega
  | mapTy k v =>
      intro hEq
      rw [getTypeString] at hEq
      have hl := congrArg String.length hEq
      simp only [String.length_append] at hl
      have hmp : ("Map<" : String).length = 4 := rfl
      have hcm : (", " : String).length = 2 := rfl
      omega
  | special k => cases k <;> decide

/-- CLAIM C1, counterexample.  A top-level Sum whose variants are exactly
`some`/`none` is analyzed as an enum: the sole descriptor has
typeTag "enum" and isOptional false, contradicting the claim that analyze
always yields the wrapped descriptor with isOptional true and never an
enum descriptor when such a Sum is the top-level input. -/
theorem optionSum_toplevel_analyzed_as_enum_cex :
    ((analyzeAlgebraicType [] []
        (.sum [(some "some", .prim .u32), (some "none", .product [])])
        "maybe_count").1.map fun f => (f.type, f.isOptional))
      = [("enum", false)]
    ∧ ¬ ((analyzeAlgebraicType [] []
        (.sum [(some "some", .prim .u32), (some "none", .product [])])
        "maybe_count").1.all fun f => f.isOptional) := by
  constructor
  · rfl
  · decide

/-- CLAIM C1, amended.  For a Sum whose two variants are named
some/none in any casing and either order: as an element of a Product, the
derived descriptor describes the wrapped some-payload — its type string
is the payload's type string (hence not "enum" when the payload is not
itself a sum) and isOptional is true; but as the top-level type passed to
analyze, the Sum is treated as an enum — a single descriptor with
typeTag "enum" and isOptional false. -/
theorem optionSum_wrapper_behavior (a b : String) (p1 p2 : AlgebraicType)
    (ha : jsToLower a = "some") (hb : jsToLower b = "none")
    (hns : ∀ vs, p1 ≠ .sum vs) :
    (isOptionalTy (.sum [(some a, p1), (some b, p2)]) = true
      ∧ isOptionalTy (.sum [(some b, p2), (some a, p1)]) = true)
    ∧ (getTypeString (.sum [(some a, p1), (some b, p2)]) = getTypeString p1
      ∧ getTypeString (.sum [(some b, p2), (some a, p1)])
        = getTypeString p1)
    ∧ (∀ elName : Option String,
        (analyzeProductElement (elName,
            .sum [(some a, p1), (some b, p2)])).isOptional = true
        ∧ (analyzeProductElement (elName,
            .sum [(some a, p1), (some b, p2)])).type = getTypeString p1
        ∧ (analyzeProductElement (elName,
            .sum [(some a, p1), (some b, p2)])).type ≠ "enum")
    ∧ (∀ (mod : List ModuleSym) (c : AnalyzerCache) (nm : String),
        cacheLookup c (.sum [(some a, p1), (some b, p2)]) = none →
        ((analyzeAlgebraicType mod c
            (.sum [(some a, p1), (some b, p2)]) nm).1.map
          fun f => (f.type, f.isOptional)) = [("enum", false)]) := by
  have hopt : isOptionalTy (.sum [(some a, p1), (some b, p2)]) = true := by
    simp [isOptionalTy, lowerVariantName, ha, hb]
  have hopt' : isOptionalTy (.sum [(some b, p2), (some a, p1)]) = true := by
    simp [isOptionalTy, lowerVariantName, ha, hb]
  have hts : getTypeString (.sum [(some a, p1), (some b, p2)])
      = getTypeString p1 := by
    simp [getTypeString, isOptionVariantList, variantIsSome,
      lowerVariantName, ha, hb]
  have hts' : getTypeString (.sum [(some b, p2), (some a, p1)])
      = getTypeString p1 := by
    simp [getTypeString, isOptionVariantList, variantIsSome,
      lowerVariantName, ha, hb]
  refine ⟨⟨hopt, hopt'⟩, ⟨hts, hts'⟩, ?_, ?_⟩
  · intro elName
    refine ⟨?_, ?_, ?_⟩
    · simp [analyzeProductElement, hopt]
    · simp [analyzeProductElement, hts]
    · simp only [analyzeProductElement, hts]
      exact getTypeString_ne_enum p1 hns
  · intro mod c nm hmiss
    unfold analyzeAlgebraicType
    rw [hmiss]
    simp [analyzeSumType, enhanceEnumField]

/-- Witness for the amended C1 at concrete inputs: the wrapper
`Sum [Some: string, None: unit-product]` (capitalised names, as the
generated bindings emit them). -/
theorem optionSum_wrapper_behavior_witness :
    isOptionalTy (.sum [(some "Some", .prim .str),
        (some "None", .product [])]) = true
    ∧ getTypeString (.sum [(some "Some", .prim .str),
        (some "None", .product [])]) = getTypeString (.prim .str)
    ∧ (analyzeProductElement (some "nickname",
        .sum [(some "Some", .prim .str),
          (some "None", .product [])])).isOptional = true
    ∧ (analyzeProductElement (some "nickname",
        .sum [(some "Some", .prim .str),
          (some "None", .product [])])).type ≠ "enum"
    ∧ ((analyzeAlgebraicType [] []
        (.sum [(some "Some", .prim .str), (some "None", .product [])])
        "nickname").1.map fun f => (f.type, f.isOptional))
      = [("enum", false)] := by
  have h := optionSum_wrapper_behavior "Some" "None" (.prim .str)
    (.product []) (by decide) (by decide) (fun vs => by simp)
  exact ⟨h.1.1, h.2.1.1, (h.2.2.1 (some "nickname")).1,
    (h.2.2.1 (some "nickname")).2.2, h.2.2.2 [] [] "nickname" (by rfl)⟩

/-- CLAIM C2, counterexample.  Invoking `create_item` with the empty bag
does not substitute the catalog's example value 42 for the required field
`a`: the emitted positional list is `(undefined, undefined)` (and no error
is raised).  The example-value fallback the claim describes lives in the
dynamic-reducer-testing form, not in `callReducer`. -/
theorem invoke_empty_bag_no_example_fallback_cex :
    callReducer (some { reducerMethods := ["createItem"] }) [demoCreateItem]
        "create_item" []
      = .ok ("createItem", [vUndefined, vUndefined])
    ∧ bagGet demoCreateItem.exampleArgs "a" = vNum 42
    ∧ vUndefined ≠ vNum 42 := by
  refine ⟨by rfl, by rfl, by simp⟩

/-- CLAIM C2, amended.  On the reducer with catalog fields
`[a: u32, b: string optional]`: the bag `a ↦ "5"` marshals to the
positional call `(5, undefined)`; the bag `a ↦ "5", b ↦ ""` marshals the
same way because an empty optional is elided; and the empty bag does not
error — the required field `a` is passed through as `undefined` (the
catalog-example fallback is performed by the calling form, not by
invoke). -/
theorem invoke_positional_marshalling :
    callReducer (some { reducerMethods := ["createItem"] }) [demoCreateItem]
        "create_item" [("a", vStr "5")]
      = .ok ("createItem", [vNum 5, vUndefined])
    ∧ callReducer (some { reducerMethods := ["createItem"] })
        [demoCreateItem] "create_item" [("a", vStr "5"), ("b", vStr "")]
      = .ok ("createItem", [vNum 5, vUndefined])
    ∧ callReducer (some { reducerMethods := ["createItem"] })
        [demoCreateItem] "create_item" []
      = .ok ("createItem", [vUndefined, vUndefined]) := by
  refine ⟨by rfl, by rfl, by rfl⟩

/-- CLAIM C6, counterexample.  With an active session, the reducer present
in the catalog and the method present on the session's reducer namespace,
`callReducer` still rejects when `BigInt` conversion of a 64-bit argument
throws — a failure mode outside the claim's three conditions, refuting the
"exactly when" characterization. -/
theorem invoke_conversion_failure_cex :
    callReducer (some { reducerMethods := ["setQuota"] }) [demoSetQuota]
        "set_quota" [("limit", vStr "unlimited")]
      = .error (.conversionFailed "Cannot convert string to a BigInt")
    ∧ (some { reducerMethods := ["setQuota"] } : Option Session) ≠ none
    ∧ ([demoSetQuota].find? fun r => r.name == "set_quota")
      = some demoSetQuota
    ∧ (["setQuota"].contains (toCamelCase "set_quota")) = true := by
  refine ⟨by rfl, by simp, by rfl, by rfl⟩

/-- CLAIM C6, amended.  `callReducer` fails with NotConnected when there
is no active session, with UnknownReducer when the name is absent from the
catalog, and with MethodMissing when the session's reducer namespace lacks
the camel-cased method; in each of those cases no remote call is issued
(and the function reads but never mutates state).  When all three guards
pass, the call is issued exactly when argument conversion succeeds, and
conversion throws (a fourth failure mode) are propagated to the caller. -/
theorem callReducer_failure_modes (conn : Option Session)
    (reducers : List ReducerMetadata) (name : String) (args : ArgBag) :
    (conn = none → callReducer conn reducers name args
        = .error .notConnected)
    ∧ (∀ session, conn = some session →
        (reducers.find? fun r => r.name == name) = none →
        callReducer conn reducers name args
          = .error (.unknownReducer name))
    ∧ (∀ session meta, conn = some session →
        (reducers.find? fun r => r.name == name) = some meta →
        session.reducerMethods.contains (toCamelCase name) = false →
        callReducer conn reducers name args
          = .error (.methodMissing (toCamelCase name)))
    ∧ (∀ session meta, conn = some session →
        (reducers.find? fun r => r.name == name) = some meta →
        session.reducerMethods.contains (toCamelCase name) = true →
        callReducer conn reducers name args
          = match createOrderedArgs meta.fields (convertArgsToObject args)
              with
            | .ok orderedArgs => .ok (toCamelCase name, orderedArgs)
            | .error msg => .error (.conversionFailed msg)) := by
  refine ⟨?_, ?_, ?_, ?_⟩
  · intro h
    rw [h]
    rfl
  · intro session hc hf
    rw [hc, callReducer.eq_def, hf]
  · intro session meta hc hf hm
    rw [hc, callReducer.eq_def, hf]
    simp only [hm, Bool.false_eq_true, if_false]
  · intro session meta hc hf hm
    rw [hc, callReducer.eq_def, hf]
    simp only [hm, if_true]

/-- Witness for the amended C6 at concrete inputs: each guard failure and
one successful marshalling. -/
theorem callReducer_failure_modes_witness :
    callReducer none [demoSetQuota] "set_quota" [] = .error .notConnected
    ∧ callReducer (some { reducerMethods := ["setQuota"] }) []
        "set_quota" [] = .error (.unknownReducer "set_quota")
    ∧ callReducer (some { reducerMethods := [] }) [demoSetQuota]
        "set_quota" [] = .error (.methodMissing "setQuota")
    ∧ callReducer (some { reducerMethods := ["setQuota"] }) [demoSetQuota]
        "set_quota" [("limit", vNum 9)]
      = .ok ("setQuota", [vBigInt 9]) := by
  refine ⟨(callReducer_failure_modes none [demoSetQuota] "set_quota" []).1
      rfl, ?_, ?_, ?_⟩
  · exact (callReducer_failure_modes (some { reducerMethods := ["setQuota"] })
      [] "set_quota" []).2.1 _ rfl (by rfl)
  · exact (callReducer_failure_modes (some { reducerMethods := [] })
      [demoSetQuota] "set_quota" []).2.2.1 _ demoSetQuota rfl (by rfl)
      (by rfl)
  · have h := (callReducer_failure_modes
      (some { reducerMethods := ["setQuota"] }) [demoSetQuota] "set_quota"
      [("limit", vNum 9)]).2.2.2 _ demoSetQuota rfl (by rfl) (by rfl)
    rw [h]
    rfl

/-- CLAIM C4.  The failure handler for 0-indexed attempt `n` schedules a
retry with delay exactly `retryBackoffMultiplier × 1000 × (n+1)`
milliseconds (carrying attempt `n+1`) when the disconnect is not
intentional and `n < maxRetries`; it schedules nothing when
`n ≥ maxRetries` or when the intentional flag is set at handling time. -/
theorem retry_backoff_schedule (cfg : ConnConfig) (s : ConnState) (n : Nat) :
    (s.intentionalDisconnect = false → n < cfg.maxRetries →
      (connStep cfg s (.connectError n)).scheduled
        = s.scheduled
          ++ [.retry (cfg.retryBackoffMultiplier * 1000 * (n + 1)) (n + 1)])
    ∧ (cfg.maxRetries ≤ n →
      (connStep cfg s (.connectError n)).scheduled = s.scheduled)
    ∧ (s.intentionalDisconnect = true →
      (connStep cfg s (.connectError n)).scheduled = s.scheduled) := by
  refine ⟨?_, ?_, ?_⟩
  · intro hflag hn
    simp [connStep, hflag, hn]
  · intro hn
    by_cases hflag : s.intentionalDisconnect
    · simp [connStep, hflag]
    · simp [connStep, hflag, Nat.not_lt.mpr hn]
  · intro hflag
    simp [connStep, hflag]

/-- Witness for C4 at concrete inputs: multiplier 2, max 3 retries,
attempt 1 schedules a 4000 ms retry of attempt 2; attempt 3 and a flagged
state schedule nothing. -/
theorem retry_backoff_schedule_witness :
    (connStep { maxRetries := 3, retryBackoffMultiplier := 2 }
        initConnState (.connectError 1)).scheduled
      = [.retry 4000 2]
    ∧ (connStep { maxRetries := 3, retryBackoffMultiplier := 2 }
        initConnState (.connectError 3)).scheduled = []
    ∧ (connStep { maxRetries := 3, retryBackoffMultiplier := 2 }
        { initConnState with intentionalDisconnect := true }
        (.connectError 1)).scheduled = [] := by
  refine ⟨?_, ?_, ?_⟩
  · have h := (retry_backoff_schedule
      { maxRetries := 3, retryBackoffMultiplier := 2 } initConnState 1).1
      rfl (by decide)
    simpa [initConnState] using h
  · have h := (retry_backoff_schedule
      { maxRetries := 3, retryBackoffMultiplier := 2 } initConnState 3).2.1
      (by decide)
    simpa [initConnState] using h
  · have h := (retry_backoff_schedule
      { maxRetries := 3, retryBackoffMultiplier := 2 }
      { initConnState with intentionalDisconnect := true } 1).2.2 rfl
    simpa [initConnState] using h

/-- CLAIM C5, counterexample.  Replaying a realizable timeline —
`connect(0)` fails at t=0 and schedules a retry for t=2000; a manual
`connect()` succeeds; `disconnect()` at t≈300 sets the intentional flag
and schedules its 1000 ms grace clear — shows a pre-disconnect retry
executing, two ways.  First, with the grace clear fired at t≈1300, the
stale retry fires at t=2000 from the disconnected state and starts a
fresh connection attempt (status becomes connecting, the ref flag
raises).  Second, when `disconnect()` is immediately followed by
`connect()` (t≈400) which succeeds (t≈500), the stale retry firing at
t=2000 still executes — over the live connection — because the closure it
invokes captured `isConnected = false` at scheduling time and only the
`isConnecting` ref is read live.  Both refute "no retry attempt from the
pre-disconnect error path is ever executed" and the second refutes
"disconnect() followed immediately by connect() never triggers a stale
retry". -/
theorem stale_retry_executes_after_disconnect_cex :
    TimerEvent.retry 2000 1
      ∈ (connRun cexConnConfig initConnState
          [.connectCall 0, .connectError 0]).scheduled
    ∧ (connRun cexConnConfig initConnState
        cexPrefixEvents).intentionalDisconnect = true
    ∧ TimerEvent.retry 2000 1
      ∈ (connRun cexConnConfig initConnState cexPrefixEvents).scheduled
    ∧ (connRun cexConnConfig initConnState
        (cexPrefixEvents ++ [.fireClear, .fireRetry 1])).status
      = .connecting
    ∧ (connRun cexConnConfig initConnState
        (cexPrefixEvents ++ [.fireClear, .fireRetry 1])).isConnecting
      = true
    ∧ (connRun cexConnConfig initConnState
        (cexPrefixEvents ++ [.connectCall 0, .connectSuccess, .fireClear])).status
      = .connected
    ∧ (connRun cexConnConfig initConnState
        (cexPrefixEvents
          ++ [.connectCall 0, .connectSuccess, .fireClear, .fireRetry 1])).status
      = .connecting := by
  refine ⟨by decide, by decide, by decide, by decide, by decide, by decide,
    by decide⟩

/-- CLAIM C5, amended.  While the intentional-disconnect flag is set, the
failure handler schedules no retry and settles at disconnected; a fresh
`connect()` that passes its entry guard clears the flag, so the flag does
not persist into the new attempt; and a stale retry timer firing while
the `isConnecting` ref flag is raised (a connect is mid-flight) is a
no-op on the connection state (only the fired timer is consumed).  An
already-scheduled pre-disconnect retry is, however, neither cancelled nor
checked against the intentional flag when it fires, and the closure it
invokes captured `isConnected = false` at scheduling time: whenever the
ref flag is down at fire time the stale retry executes a fresh connection
attempt — even while the machine is connected, as after `disconnect()`
immediately followed by a successful `connect()`. -/
theorem intentional_disconnect_scoped_suppression (cfg : ConnConfig)
    (s : ConnState) (n : Nat) :
    (s.intentionalDisconnect = true →
      (connStep cfg s (.connectError n)).scheduled = s.scheduled
        ∧ (connStep cfg s (.connectError n)).status = .disconnected)
    ∧ (s.isConnecting = false → s.status ≠ .connected →
      (connStep cfg s (.connectCall n)).intentionalDisconnect = false)
    ∧ (s.isConnecting = true →
      (connStep cfg s (.fireRetry n)).status = s.status
        ∧ (connStep cfg s (.fireRetry n)).isConnecting = s.isConnecting
        ∧ (connStep cfg s (.fireRetry n)).intentionalDisconnect
          = s.intentionalDisconnect)
    ∧ (s.isConnecting = false → s.scheduled.any (isRetryFor n) = true →
      (connStep cfg s (.fireRetry n)).status = .connecting
        ∧ (connStep cfg s (.fireRetry n)).isConnecting = true
        ∧ (connStep cfg s (.fireRetry n)).intentionalDisconnect
          = false) := by
  refine ⟨?_, ?_, ?_, ?_⟩
  · intro hflag
    constructor
    · simp [connStep, hflag]
    · simp [connStep, hflag]
  · intro hconn hstat
    simp [connStep, connectEntry, hconn, hstat]
  · intro hconn
    by_cases hany : s.scheduled.any (isRetryFor n)
    · simp [connStep, hany, connectEntry, hconn]
    · simp [connStep, hany]
  · intro hconn hany
    simp [connStep, hany, connectEntry, hconn]

/-- Witness for the amended C5 at concrete inputs: a flagged error handler
schedules nothing and disconnects; `connect()` from the flagged
disconnected state clears the flag; a stale retry firing mid-connect
leaves the connection state alone; and a stale retry firing while
connected (ref flag down) executes, turning the status back to
connecting. -/
theorem intentional_disconnect_scoped_suppression_witness :
    (connStep cexConnConfig
        { initConnState with intentionalDisconnect := true }
        (.connectError 0)).scheduled = []
    ∧ (connStep cexConnConfig
        { initConnState with intentionalDisconnect := true }
        (.connectCall 0)).intentionalDisconnect = false
    ∧ (connStep cexConnConfig
        { initConnState with
            status := .connecting
            isConnecting := true
            scheduled := [.retry 2000 1] }
        (.fireRetry 1)).status = .connecting
    ∧ (connStep cexConnConfig
        { initConnState with
            status := .connected
            hasConnection := true
            scheduled := [.retry 2000 1] }
        (.fireRetry 1)).status = .connecting := by
  refine ⟨?_, ?_, ?_, ?_⟩
  · have h := (intentional_disconnect_scoped_suppression cexConnConfig
      { initConnState with intentionalDisconnect := true } 0).1 rfl
    simpa [initConnState] using h.1
  · exact (intentional_disconnect_scoped_suppression cexConnConfig
      { initConnState with intentionalDisconnect := true } 0).2.1 rfl
      (by decide)
  · have h := (intentional_disconnect_scoped_suppression cexConnConfig
      { initConnState with
          status := .connecting
          isConnecting := true
          scheduled := [.retry 2000 1] } 1).2.2.1 rfl
    exact h.1
  · have h := (intentional_disconnect_scoped_suppression cexConnConfig
      { initConnState with
          status := .connected
          hasConnection := true
          scheduled := [.retry 2000 1] } 1).2.2.2 rfl (by decide)
    exact h.1

/-- A cache hit returns the stored fields and leaves the cache
untouched. -/
theorem analyze_cache_hit (mod : List ModuleSym) (c : AnalyzerCache)
    (t : AlgebraicType) (nm : String) (v : List FieldMetadata)
    (h : cacheLookup c t = some v) :
    analyzeAlgebraicType mod c t nm = (v, c) := by
  unfold analyzeAlgebraicType
  rw [h]

/-- Discovery walks never invalidate existing cache entries. -/
theorem introspect_preserves_cache (mod : ModuleModel)
    (names : List String) (c : AnalyzerCache) (t : AlgebraicType)
    (v : List FieldMetadata) (h : cacheLookup c t = some v) :
    cacheLookup (introspectSyms mod names c).2 t = some v := by
  induction names generalizing c with
  | nil => simpa [introspectSyms] using h
  | cons n rest ih =>
      cases hsym : symbolAlgType mod n with
      | none =>
          simp only [introspectSyms, hsym]
          exact ih c h
      | some u =>
          simp only [introspectSyms, hsym]
          exact ih _ (analyze_preserves_cache mod.exports c u t n v h)

/-- A second discovery walk over the same symbol list, started from any
cache containing the first walk's final entries, reproduces the first
walk's per-symbol field lists and leaves its own cache unchanged. -/
theorem introspect_stable (mod : ModuleModel) (names : List String)
    (c d : AnalyzerCache)
    (hsub : ∀ t v, cacheLookup (introspectSyms mod names c).2 t = some v →
      cacheLookup d t = some v) :
    introspectSyms mod names d = ((introspectSyms mod names c).1, d) := by
  induction names generalizing c d with
  | nil => simp [introspectSyms]
  | cons n rest ih =>
      cases hsym : symbolAlgType mod n with
      | none =>
          simp only [introspectSyms, hsym]
          apply ih c d
          intro t v hv
          apply hsub
          simpa [introspectSyms, hsym] using hv
      | some u =>
          have hsub' : ∀ t v,
              cacheLookup
                (introspectSyms mod rest
                  (analyzeAlgebraicType mod.exports c u n).2).2 t = some v →
              cacheLookup d t = some v := by
            intro t v hv
            apply hsub
            simpa [introspectSyms, hsym] using hv
          have hstored : cacheLookup d u
              = some (analyzeAlgebraicType mod.exports c u n).1 := by
            apply hsub'
            exact introspect_preserves_cache mod rest _ u _
              (analyze_caches_result mod.exports c u n)
          have hhit : analyzeAlgebraicType mod.exports d u n
              = ((analyzeAlgebraicType mod.exports c u n).1, d) :=
            analyze_cache_hit mod.exports d u n _ hstored
          have hrest := ih ((analyzeAlgebraicType mod.exports c u n).2) d
            hsub'
          simp only [introspectSyms, hsym, hhit, hrest]

/-- Stable insertion commutes with mapping a sort-key-preserving
function. -/
theorem insSorted_map {α β : Type} (le : α → α → Bool)
    (le' : β → β → Bool) (f : α → β)
    (hc : ∀ a b, le' (f a) (f b) = le a b) (a : α) (l : List α) :
    insSorted le' (f a) (l.map f) = (insSorted le a l).map f := by
  induction l with
  | nil => simp [insSorted]
  | cons b rest ih =>
      by_cases hab : le a b
      · simp [insSorted, hc, hab]
      · simp [insSorted, hc, hab, ih]

/-- Stable insertion sort commutes with mapping a sort-key-preserving
function. -/
theorem insSort_map {α β : Type} (le : α → α → Bool)
    (le' : β → β → Bool) (f : α → β)
    (hc : ∀ a b, le' (f a) (f b) = le a b) (l : List α) :
    insSort le' (l.map f) = (insSort le l).map f := by
  induction l with
  | nil => simp [insSort]
  | cons a rest ih =>
      simp only [List.map_cons, insSort, ih]
      exact insSorted_map le le' f hc a (insSort le rest)

/-- CLAIM C7.  Against an unchanged generated module namespace, a second
round of `discoverTables()` and `discoverReducers()` (with the analyzer's
memoization cache carried over, and the randomised example-argument
generators `g1`, `g2` of the two rounds arbitrary) yields table catalogs
that are identical — hence of equal length with identical name sets — and
reducer catalogs of equal length with identical name sequences; orderings
agree position by position, so ordering differences could only ever occur
between entries with equal sort keys. -/
theorem discovery_repeat_stable (mod : ModuleModel) (c : AnalyzerCache)
    (g1 g2 : List FieldMetadata → ArgBag) :
    let r1t := discoverTables mod c
    let r1r := discoverReducers mod g1 r1t.2
    let r2t := discoverTables mod r1r.2
    let r2r := discoverReducers mod g2 r2t.2
    (r2t.1 = r1t.1 ∧ r2t.1.map (·.name) = r1t.1.map (·.name))
    ∧ (r2r.1.length = r1r.1.length
       ∧ r2r.1.map (·.name) = r1r.1.map (·.name)) := by
  have hTsub : ∀ t v,
      cacheLookup (introspectSyms mod (findTableTypes mod) c).2 t = some v →
      cacheLookup
        (introspectSyms mod (findReducerTypes mod)
          (introspectSyms mod (findTableTypes mod) c).2).2 t = some v := by
    intro t v hv
    exact introspect_preserves_cache mod (findReducerTypes mod) _ t v hv
  have hT2 : introspectSyms mod (findTableTypes mod)
        (introspectSyms mod (findReducerTypes mod)
          (introspectSyms mod (findTableTypes mod) c).2).2
      = ((introspectSyms mod (findTableTypes mod) c).1,
         (introspectSyms mod (findReducerTypes mod)
           (introspectSyms mod (findTableTypes mod) c).2).2) :=
    introspect_stable mod (findTableTypes mod) c _ hTsub
  have hR2 : introspectSyms mod (findReducerTypes mod)
        (introspectSyms mod (findReducerTypes mod)
          (introspectSyms mod (findTableTypes mod) c).2).2
      = ((introspectSyms mod (findReducerTypes mod)
           (introspectSyms mod (findTableTypes mod) c).2).1,
         (introspectSyms mod (findReducerTypes mod)
           (introspectSyms mod (findTableTypes mod) c).2).2) :=
    introspect_stable mod (findReducerTypes mod) _ _ (fun t v hv => hv)
  have hmapgen : ∀ (g g' : List FieldMetadata → ArgBag)
      (pairs : List (String × List FieldMetadata)),
      insSort reducerLE (pairs.map (mkReducerMeta g'))
        = (insSort reducerLE (pairs.map (mkReducerMeta g))).map
            (fun r => { r with exampleArgs := g' r.fields }) := by
    intro g g' pairs
    have hpt : pairs.map (mkReducerMeta g')
        = (pairs.map (mkReducerMeta g)).map
            (fun r => { r with exampleArgs := g' r.fields }) := by
      rw [List.map_map]
      rfl
    rw [hpt]
    exact insSort_map reducerLE reducerLE
      (fun r => { r with exampleArgs := g' r.fields })
      (fun a b => rfl) (pairs.map (mkReducerMeta g))
  refine ⟨⟨?_, ?_⟩, ?_, ?_⟩
  · simp only [discoverTables, discoverReducers, hT2]
  · simp only [discoverTables, discoverReducers, hT2]
  · simp only [discoverTables, discoverReducers, hT2, hR2,
      hmapgen g1 g2, List.length_map]
  · simp only [discoverTables, discoverReducers, hT2, hR2,
      hmapgen g1 g2, List.map_map]
    rfl
